import Mathlib

/-!
Verification of the prometheus-neato-exporter collector against its source
(main.go). The external collaborators (the neato cloud client, the
prometheus registry, the HTTP server) are modelled by their observable
results: fetches are `Except` values attached to each device, gauges are
finite maps from label tuples to rational values, log lines and sleeps are
events in a trace. Enumerated state attributes of the external library
(state, action, category, navigation mode) are modelled by the strings
their String() methods render to, since the collector only ever consumes
those strings. Go map iteration order is unspecified; it is modelled by an
explicit `order` parameter, instantiated only with permutations of the
insertion-ordered key list.
-/

/-- Identity of one robot as delivered by the device roster
(neato.Robot): name and serial are always present, model, firmware and
MAC address are optional pointers in the source. -/
structure Robot where
  name : String
  serial : String
  model : Option String
  firmware : Option String
  mac : Option String
deriving DecidableEq, Repr

/-- The Details part of a robot state (s.Details in the source): battery
charge and the four boolean flags. -/
structure StateDetails where
  charge : Int
  isCharging : Bool
  isDocked : Bool
  isScheduleEnabled : Bool
  dockHasBeenSeen : Bool
deriving DecidableEq, Repr

/-- One fetched robot state. `error` and `alert` are optional pointers in
the source; the four enumerated attributes are modelled by the strings
their String() methods produce. -/
structure RobotState where
  error : Option String
  alert : Option String
  state : String
  action : String
  category : String
  navigationMode : String
  details : StateDetails
deriving DecidableEq, Repr

/-- One entry of the map list returned by r.Maps(): only the CleanedArea
field (an optional float in the source, modelled exactly as a rational
since the collector only copies it into a gauge) is consumed. -/
structure MapData where
  cleanedArea : Option ℚ
deriving DecidableEq, Repr

/-- A device as the collector sees it during one poll cycle: the roster
entry together with the results the two network fetches r.State() and
r.Maps() would return for it in this cycle. -/
structure Device where
  robot : Robot
  stateResult : Except String RobotState
  mapsResult : Except String (List MapData)
deriving Repr

/-- Label tuple of the battery and area gauges: the five robotAttrs
name, serial, model, firmware, mac. -/
structure BKey where
  name : String
  serial : String
  model : String
  firmware : String
  mac : String
deriving DecidableEq, Repr

/-- Label tuple of the state gauge: the five robotAttrs followed by the
eleven extra labels appended in the source. -/
structure SKey where
  base : BKey
  error : String
  alert : String
  state : String
  action : String
  category : String
  navigationMode : String
  isCharging : String
  isDocked : String
  isScheduleEnabled : String
  dockHasBeenSeen : String
  charge : String
deriving DecidableEq, Repr

/-- Source pattern `x := "unknown"; if p != nil \x7b x = *p \x7d` used for
the model, firmware and mac labels. -/
def orUnknown : Option String → String
  | none => "unknown"
  | some v => v

/-- Source pattern `x := "unset"; if p != nil \x7b x = *p \x7d` used for
the error and alert labels. -/
def orUnset : Option String → String
  | none => "unset"
  | some v => v

/-- strconv.FormatBool. -/
def formatBool (b : Bool) : String := if b then "true" else "false"

/-- strconv.FormatInt(n, 10). -/
def formatIntDec (n : Int) : String := toString n

/-- The five-label tuple the collector passes to
batteryGauge.WithLabelValues and areaGauge.WithLabelValues. -/
def batteryKeyOf (r : Robot) : BKey :=
  ⟨r.name, r.serial, orUnknown r.model, orUnknown r.firmware, orUnknown r.mac⟩

/-- The sixteen--label tuple the collector passes to
stateGauge.WithLabelValues. -/
def stateKeyOf (r : Robot) (s : RobotState) : SKey :=
  ⟨batteryKeyOf r, orUnset s.error, orUnset s.alert, s.state, s.action,
    s.category, s.navigationMode,
    formatBool s.details.isCharging, formatBool s.details.isDocked,
    formatBool s.details.isScheduleEnabled, formatBool s.details.dockHasBeenSeen,
    formatIntDec s.details.charge⟩

/-- State of the three registered gauge vectors: a label tuple maps to
`some v` once set, `none` while never set. -/
structure Gauges where
  battery : BKey → Option ℚ
  area : BKey → Option ℚ
  state : SKey → Option ℚ

/-- Gauges at process start: no label combination has been set. -/
def emptyGauges : Gauges := ⟨fun _ => none, fun _ => none, fun _ => none⟩

/-- Label-keyed upsert, the effect of WithLabelValues(...).Set(v). -/
def setGauge {K : Type} [DecidableEq K] (g : K → Option ℚ) (k : K) (v : ℚ) :
    K → Option ℚ :=
  fun k2 => if k2 = k then some v else g k2

/-- Observable effects of the collector, in program order: gauge updates,
log lines and interval sleeps. -/
inductive Event where
  | stateFetchFailed (name msg : String)
  | sleep
  | setBattery (k : BKey) (v : ℚ)
  | setState (k : SKey)
  | mapsFetchFailed (name serial msg : String)
  | noMaps (name serial : String)
  | noCleanedArea (name serial : String)
  | setArea (k : BKey) (v : ℚ)
deriving DecidableEq, Repr

/-- Body of the inner `for _, r := range robots` loop of collector() for
one device: fetch state; on failure log, sleep for the interval and
continue (in Go, `continue` targets this innermost loop, so only this
device is skipped); on success set the battery and state gauges, then
fetch maps and either set the area gauge or log why not. -/
def pollDevice (g : Gauges) (d : Device) : Gauges × List Event :=
  match d.stateResult with
  | Except.error e => (g, [Event.stateFetchFailed d.robot.name e, Event.sleep])
  | Except.ok s =>
    let bkey := batteryKeyOf d.robot
    let bval : ℚ := (s.details.charge : ℚ)
    let skey := stateKeyOf d.robot s
    let g2 : Gauges :=
      { g with battery := setGauge g.battery bkey bval,
               state := setGauge g.state skey 1 }
    let ev0 := [Event.setBattery bkey bval, Event.setState skey]
    match d.mapsResult with
    | Except.error e =>
        (g2, ev0 ++ [Event.mapsFetchFailed d.robot.name d.robot.serial e])
    | Except.ok [] =>
        (g2, ev0 ++ [Event.noMaps d.robot.name d.robot.serial])
    | Except.ok (m :: _) =>
      match m.cleanedArea with
      | some a =>
          ({ g2 with area := setGauge g2.area bkey a },
            ev0 ++ [Event.setArea bkey a])
      | none =>
          (g2, ev0 ++ [Event.noCleanedArea d.robot.name d.robot.serial])

/-- The inner device loop of collector(): each configured device in order,
threading the gauges and concatenating the event traces. -/
def pollDevices (g : Gauges) : List Device → Gauges × List Event
  | [] => (g, [])
  | d :: rest =>
    let r1 := pollDevice g d
    let r2 := pollDevices r1.1 rest
    (r2.1, r1.2 ++ r2.2)

/-- One iteration of the outer `for` loop of collector(): a full pass over
the devices followed by the interval sleep. -/
def collectorCycle (g : Gauges) (ds : List Device) : Gauges × List Event :=
  let r := pollDevices g ds
  (r.1, r.2 ++ [Event.sleep])

/-- Names of the devices whose state fetch was attempted in a trace: every
device the loop body ran for emits either its failure log line or its
battery gauge update as first event. -/
def polledNames : List Event → List String
  | [] => []
  | Event.stateFetchFailed n _ :: rest => n :: polledNames rest
  | Event.setBattery k _ :: rest => k.name :: polledNames rest
  | _ :: rest => polledNames rest

/-- Splitting a character list at every comma (character 44), keeping
empty fields, as strings.Split does for a one-character separator. -/
def splitCommaAux : List Char → List (List Char)
  | [] => [[]]
  | c :: rest =>
    let r := splitCommaAux rest
    if c = Char.ofNat 44 then [] :: r
    else
      match r with
      | [] => [[c]]
      | t :: ts => (c :: t) :: ts

/-- strings.Split(s, ","): the comma-separated fields of s, empty fields
kept (structural rendition, so that it evaluates inside the kernel). -/
def splitComma (s : String) : List String :=
  (splitCommaAux s.toList).map (fun l => String.mk l)

/-- strconv.ParseInt(p, 10, 64): an optional leading sign followed by at
least one ASCII digit, value within the int64 range; `none` models every
error return (invalid syntax or range). -/
def parseIntGo (p : String) : Option Int :=
  match p.toList with
  | [] => none
  | c :: cs =>
    let neg := c = Char.ofNat 45
    let digits := if c = Char.ofNat 45 ∨ c = Char.ofNat 43 then cs else c :: cs
    if digits = [] then none
    else if digits.all Char.isDigit then
      let m : Nat := digits.foldl (fun a d => a * 10 + (d.toNat - 48)) 0
      let v : Int := if neg then -(m : Int) else (m : Int)
      if v < -(2 ^ 63) ∨ 2 ^ 63 - 1 < v then none else some v
    else none

/-- Message of the error getBots returns for an unparsable token: the
format string embeds the offending token (quotes and the wrapped strconv
error text are elided). -/
def parseErrMsg (p : String) : String :=
  "string " ++ p ++ " is not a valid digit"

/-- Message of the error getBots returns when zero is mixed with other
indices. -/
def zeroMixMsg : String := "cannot have a list of indexes containing zero"

/-- The parsing part of the `for _, p := range parts` loop of getBots:
values of all tokens in order, or the error for the first token that
fails to parse (the source returns from inside the loop at that point). -/
def parseAll : List String → Except String (List Int)
  | [] => Except.ok []
  | p :: rest =>
    match parseIntGo p with
    | none => Except.error (parseErrMsg p)
    | some n =>
      match parseAll rest with
      | Except.error e => Except.error e
      | Except.ok ns => Except.ok (n :: ns)

/-- Effect of `botMap[int(n)] = struct\x7b\x7d\x7b\x7d` on the insertion-
ordered key list of the map. -/
def insertKey (ks : List Int) (n : Int) : List Int :=
  if n ∈ ks then ks else ks ++ [n]

/-- Key set of botMap after the loop, as its insertion-ordered key list. -/
def mapKeys (vals : List Int) : List Int := vals.foldl insertKey []

/-- sort.Slice(bots, func(i, j int) bool \x7b return i < j \x7d): the
comparator compares the positional indices i and j themselves, never the
elements bots[i] and bots[j]; under it every slice already reads as
strictly sorted, so the call performs no swap and the order is returned
unchanged. -/
def sortSliceIndexLess (l : List Int) : List Int := l

/-- getBots from the source. `Except.ok none` is the nil result meaning
all bots; `Except.ok (some l)` a concrete index list. `order` models the
unspecified iteration order of the Go map `for n := range botMap`; it is
only ever instantiated with permutations of the insertion-ordered key
list. -/
def getBots (order : List Int → List Int) (s : String) :
    Except String (Option (List Int)) :=
  if s = "" then Except.ok none
  else
    match parseAll (splitComma s) with
    | Except.error e => Except.error e
    | Except.ok vals =>
      let keys := mapKeys vals
      let hasZero := vals.contains 0
      if hasZero = true ∧ 1 < keys.length then Except.error zeroMixMsg
      else if hasZero = true ∧ keys.length = 0 then Except.ok none
      else Except.ok (some (sortSliceIndexLess (order keys)))

/-- Outcome of resolving the selected index list against the fetched
roster (the `for _, n := range bots` loop of main). -/
inductive ResolveResult where
  | ok (robots : List Robot)
  | fatalOutOfBounds (n : Int) (total : Nat)
  | indexViolation (idx : Int)
deriving DecidableEq, Repr

/-- The resolution loop of main: for each selected n, if n exceeds the
roster size the process dies with the logged out-of-bounds fatal error;
otherwise allRobots[n-1] is read, which for n-1 outside [0, len) is a Go
runtime bounds violation (modelled as `indexViolation`), and for valid
n-1 appends that robot. -/
def resolveRobots (allRobots : List Robot) (acc : List Robot) :
    List Int → ResolveResult
  | [] => ResolveResult.ok acc
  | n :: rest =>
    if (allRobots.length : Int) < n then
      ResolveResult.fatalOutOfBounds n allRobots.length
    else if h : 0 ≤ n - 1 ∧ (n - 1).toNat < allRobots.length then
      resolveRobots allRobots (acc ++ [allRobots.get ⟨(n - 1).toNat, h.2⟩]) rest
    else
      ResolveResult.indexViolation (n - 1)

/-- Result of process startup (main up to the point where the gauges are
registered, the collector goroutine is started and the server listens).
Only the `running` outcome registers metrics and starts the collector;
every other outcome terminates the process first. -/
inductive StartupOutcome where
  | fatalEmptyToken
  | fatalBotsParse (e : String)
  | fatalGetRobots (e : String)
  | fatalNoRobots
  | fatalOutOfBounds (n : Int) (total : Nat)
  | indexViolation (idx : Int)
  | running (robots : List Robot)
deriving DecidableEq, Repr

/-- The startup sequence of main: token check, getBots, roster fetch,
empty-roster check, selection resolution, then (in the `running` outcome
only) gauge registration, collector start and serving. `robotsResult`
models what acc.Robots() returns. -/
def mainStartup (token botsStr : String) (order : List Int → List Int)
    (robotsResult : Except String (List Robot)) : StartupOutcome :=
  if token = "" then StartupOutcome.fatalEmptyToken
  else
    match getBots order botsStr with
    | Except.error e => StartupOutcome.fatalBotsParse e
    | Except.ok botsOpt =>
      match robotsResult with
      | Except.error e => StartupOutcome.fatalGetRobots e
      | Except.ok allRobots =>
        if allRobots.length = 0 then StartupOutcome.fatalNoRobots
        else
          match botsOpt with
          | none => StartupOutcome.running allRobots
          | some bots =>
            match resolveRobots allRobots [] bots with
            | ResolveResult.ok rs => StartupOutcome.running rs
            | ResolveResult.fatalOutOfBounds n t =>
                StartupOutcome.fatalOutOfBounds n t
            | ResolveResult.indexViolation i =>
                StartupOutcome.indexViolation i

/-- Sample roster entry with every optional identity attribute present. -/
def rAlpha : Robot := ⟨"alpha", "SER1", some "D3", some "1.0", some "aa:bb"⟩

/-- Sample roster entry with every optional identity attribute absent. -/
def rBeta : Robot := ⟨"beta", "SER2", none, none, none⟩

/-- Third sample roster entry. -/
def rGamma : Robot := ⟨"gamma", "SER3", some "D5", none, some "cc:dd"⟩

/-- A roster of three devices, as in the end-to-end scenarios. -/
def roster3 : List Robot := [rAlpha, rBeta, rGamma]

/-- A sample fetched state with absent error and alert codes. -/
def stBeta : RobotState :=
  ⟨none, none, "BUSY", "HOUSE_CLEANING", "house", "normal",
    ⟨77, true, true, false, true⟩⟩

/-- A sample fetched state with error and alert codes present. -/
def stGamma : RobotState :=
  ⟨some "ui_alert_dust_bin_full", some "dustbin_full", "IDLE", "INVALID",
    "manual", "deep", ⟨42, false, false, true, false⟩⟩

/-- Device whose state fetch fails this cycle. -/
def devAlphaFail : Device := ⟨rAlpha, Except.error "timeout", Except.ok []⟩

/-- Device whose state and map fetches both succeed this cycle. -/
def devBetaOk : Device :=
  ⟨rBeta, Except.ok stBeta, Except.ok [⟨some 25⟩]⟩

/-- Device whose state fetch succeeds but whose map list is empty. -/
def devBetaNoMaps : Device := ⟨rBeta, Except.ok stBeta, Except.ok []⟩

/-- Device whose state and map fetches both succeed this cycle. -/
def devGammaOk : Device :=
  ⟨rGamma, Except.ok stGamma, Except.ok [⟨some 31⟩]⟩

lemma mem_insertKey (ks : List Int) (n a : Int) :
    a ∈ insertKey ks n ↔ a ∈ ks ∨ a = n := by
  unfold insertKey
  by_cases h : n ∈ ks
  · rw [if_pos h]
    constructor
    · exact fun ha => Or.inl ha
    · rintro (ha | rfl)
      · exact ha
      · exact h
  · rw [if_neg h]
    simp [List.mem_append]

lemma mem_foldl_insertKey (vals : List Int) :
    ∀ init a, a ∈ vals.foldl insertKey init ↔ a ∈ init ∨ a ∈ vals := by
  induction vals with
  | nil => intro init a; simp
  | cons v vs ih =>
    intro init a
    rw [List.foldl_cons, ih (insertKey init v) a, mem_insertKey]
    constructor
    · rintro ((h | rfl) | h)
      · exact Or.inl h
      · exact Or.inr (List.mem_cons_self _ _)
      · exact Or.inr (List.mem_cons_of_mem v h)
    · rintro (h | h)
      · exact Or.inl (Or.inl h)
      · rcases List.mem_cons.mp h with rfl | h2
        · exact Or.inl (Or.inr rfl)
        · exact Or.inr h2

lemma mem_mapKeys (vals : List Int) (a : Int) :
    a ∈ mapKeys vals ↔ a ∈ vals := by
  unfold mapKeys
  rw [mem_foldl_insertKey]
  simp

lemma one_lt_length_of_two_mem {a b : Int} {l : List Int}
    (ha : a ∈ l) (hb : b ∈ l) (hab : a ≠ b) : 1 < l.length := by
  match l with
  | [] => cases ha
  | [x] =>
    rw [List.mem_singleton] at ha hb
    exact absurd (ha.trans hb.symm) hab
  | x :: y :: t => simp [List.length_cons]

lemma parseAll_error_of_find (parts : List String) (p : String)
    (h : parts.find? (fun q => (parseIntGo q).isNone) = some p) :
    parseAll parts = Except.error (parseErrMsg p) := by
  induction parts with
  | nil => cases h
  | cons q rest ih =>
    unfold parseAll
    cases hpq : parseIntGo q with
    | none =>
      have hq2 : (fun r => (parseIntGo r).isNone) q = true := by
        simp only [hpq, Option.isNone_none]
      rw [List.find?_cons_of_pos rest hq2] at h
      cases h
      rfl
    | some n =>
      have hq2 : ¬ (fun r => (parseIntGo r).isNone) q = true := by
        simp only [hpq, Option.isNone_some]
        exact Bool.false_ne_true
      rw [List.find?_cons_of_neg rest hq2] at h
      rw [ih h]

lemma polledNames_append (a b : List Event) :
    polledNames (a ++ b) = polledNames a ++ polledNames b := by
  induction a with
  | nil => rfl
  | cons e rest ih => cases e <;> simp [polledNames, ih]

lemma polledNames_pollDevice (g : Gauges) (d : Device) :
    polledNames (pollDevice g d).2 = [d.robot.name] := by
  obtain ⟨r, sr, mr⟩ := d
  cases sr with
  | error e => simp [pollDevice, polledNames]
  | ok s =>
    cases mr with
    | error e => simp [pollDevice, polledNames, batteryKeyOf]
    | ok ms =>
      cases ms with
      | nil => simp [pollDevice, polledNames, batteryKeyOf]
      | cons m rest =>
        cases hm : m.cleanedArea <;>
          simp [pollDevice, hm, polledNames, batteryKeyOf]

lemma polledNames_pollDevices (g : Gauges) (ds : List Device) :
    polledNames (pollDevices g ds).2 = ds.map (fun d => d.robot.name) := by
  induction ds generalizing g with
  | nil => rfl
  | cons d rest ih =>
    simp [pollDevices, polledNames_append, polledNames_pollDevice, ih]

lemma polledNames_collectorCycle (g : Gauges) (ds : List Device) :
    polledNames (collectorCycle g ds).2 = ds.map (fun d => d.robot.name) := by
  simp [collectorCycle, polledNames_append, polledNames_pollDevices, polledNames]

/-- The three log lines of the map-handling section of the loop body. -/
def isMapLogEvent : Event → Bool
  | Event.mapsFetchFailed _ _ _ => true
  | Event.noMaps _ _ => true
  | Event.noCleanedArea _ _ => true
  | _ => false

lemma resolveRobots_fatal_of_over (allRobots : List Robot) (bots : List Int) :
    ∀ acc : List Robot, (∀ m ∈ bots, 1 ≤ m) →
    (∃ n ∈ bots, (allRobots.length : Int) < n) →
    ∃ n ∈ bots, (allRobots.length : Int) < n ∧
      resolveRobots allRobots acc bots
        = ResolveResult.fatalOutOfBounds n allRobots.length := by
  induction bots with
  | nil =>
    intro acc _ hex
    obtain ⟨n, hn, _⟩ := hex
    cases hn
  | cons n rest ih =>
    intro acc hpos hex
    by_cases hover : (allRobots.length : Int) < n
    · refine ⟨n, List.mem_cons_self _ _, hover, ?_⟩
      unfold resolveRobots
      rw [if_pos hover]
    · have h1 : 1 ≤ n := hpos n (List.mem_cons_self _ _)
      have hvalid : 0 ≤ n - 1 ∧ (n - 1).toNat < allRobots.length := by omega
      obtain ⟨n2, hn2, hn2o⟩ := hex
      rcases List.mem_cons.mp hn2 with rfl | hn2r
      · exact absurd hn2o hover
      obtain ⟨n3, hn3, hn3o, heq⟩ :=
        ih (acc ++ [allRobots.get ⟨(n - 1).toNat, hvalid.2⟩])
          (fun m hm => hpos m (List.mem_cons_of_mem _ hm)) ⟨n2, hn2r, hn2o⟩
      refine ⟨n3, List.mem_cons_of_mem _ hn3, hn3o, ?_⟩
      unfold resolveRobots
      rw [if_neg hover, dif_pos hvalid]
      exact heq

lemma resolveRobots_violation_of_nonpos (allRobots : List Robot)
    (bots : List Int) :
    ∀ acc : List Robot, (∀ m ∈ bots, m ≤ (allRobots.length : Int)) →
    (∃ n ∈ bots, n ≤ 0) →
    ∃ n ∈ bots, n ≤ 0 ∧
      resolveRobots allRobots acc bots = ResolveResult.indexViolation (n - 1) := by
  induction bots with
  | nil =>
    intro acc _ hex
    obtain ⟨n, hn, _⟩ := hex
    cases hn
  | cons n rest ih =>
    intro acc hall hex
    by_cases hnp : n ≤ 0
    · refine ⟨n, List.mem_cons_self _ _, hnp, ?_⟩
      unfold resolveRobots
      have hnotover : ¬ (allRobots.length : Int) < n := by
        have : (0 : Int) ≤ (allRobots.length : Int) := Int.natCast_nonneg _
        omega
      have hnotvalid : ¬ (0 ≤ n - 1 ∧ (n - 1).toNat < allRobots.length) := by
        intro hc
        omega
      rw [if_neg hnotover, dif_neg hnotvalid]
    · have h1 : 1 ≤ n := by omega
      have hle : n ≤ (allRobots.length : Int) := hall n (List.mem_cons_self _ _)
      have hnotover : ¬ (allRobots.length : Int) < n := by omega
      have hvalid : 0 ≤ n - 1 ∧ (n - 1).toNat < allRobots.length := by omega
      obtain ⟨n2, hn2, hn2o⟩ := hex
      rcases List.mem_cons.mp hn2 with rfl | hn2r
      · exact absurd hn2o hnp
      obtain ⟨n3, hn3, hn3o, heq⟩ :=
        ih (acc ++ [allRobots.get ⟨(n - 1).toNat, hvalid.2⟩])
          (fun m hm => hall m (List.mem_cons_of_mem _ hm)) ⟨n2, hn2r, hn2o⟩
      refine ⟨n3, List.mem_cons_of_mem _ hn3, hn3o, ?_⟩
      unfold resolveRobots
      rw [if_neg hnotover, dif_pos hvalid]
      exact heq

/-- Claim C1: the spec says that when the state fetch for a device fails,
the collector skips the remainder of the poll cycle entirely, polling
later devices only in the next cycle. In the source the `continue` binds
to the innermost loop (the per-device one), so the code logs, sleeps for
the interval, and then polls the NEXT DEVICE of the same cycle: with
devices [alpha, beta] and a failing fetch for alpha, beta is polled and
its gauges are set in the same cycle, right after the failure and the
sleep. The sleep placed before the `continue` only makes sense for the
documented skip-cycle policy, so the code, not the spec, is the slip. -/
theorem c1_failure_skips_only_that_device :
    (collectorCycle emptyGauges [devAlphaFail, devBetaOk]).2
      = [Event.stateFetchFailed "alpha" "timeout", Event.sleep,
         Event.setBattery (batteryKeyOf rBeta) ((77 : Int) : ℚ),
         Event.setState (stateKeyOf rBeta stBeta),
         Event.setArea (batteryKeyOf rBeta) 25, Event.sleep]
    ∧ (collectorCycle emptyGauges [devAlphaFail, devBetaOk]).1.battery
        (batteryKeyOf rBeta) = some ((77 : Int) : ℚ)
    ∧ polledNames (collectorCycle emptyGauges [devAlphaFail, devBetaOk]).2
      = ["alpha", "beta"] := by
  refine ⟨rfl, ?_, rfl⟩
  show setGauge emptyGauges.battery (batteryKeyOf rBeta) ((77 : Int) : ℚ)
      (batteryKeyOf rBeta) = some ((77 : Int) : ℚ)
  rw [setGauge, if_pos rfl]

/-- Claim C2: the spec says a selection consisting only of the token 0
(also repeated) is equivalent to the empty string and yields the nil
all-bots sentinel. In the source the `len(botMap) == 0` early return is
dead code (after parsing "0" the map holds the key 0, so its size is 1),
hence getBots falls through and returns the concrete list [0] with no
error, unlike the empty string; the in-code flag help text (use 0 or
leave it empty to use all bots) and the dead-branch comment show the
intent, so this is a code bug. -/
theorem c2_zero_selection_passes_through :
    getBots id "0" = Except.ok (some [0])
    ∧ getBots id "0,0" = Except.ok (some [0])
    ∧ getBots id "" = Except.ok none
    ∧ getBots id "0" ≠ getBots id "" := by
  refine ⟨rfl, rfl, rfl, ?_⟩
  intro h
  have h2 : (Except.ok (some [(0 : Int)]) : Except String (Option (List Int)))
      = Except.ok none := h
  exact Option.noConfusion (Except.ok.inj h2)

/-- Claim C3: the spec says the returned selection is sorted ascending.
The source calls sort.Slice with the comparator returning i < j for the
positional indices i and j, never consulting bots[i] or bots[j]; under
that comparator every slice is already in order, so nothing is ever
swapped and the result simply follows the unspecified Go map iteration
order. With iteration order reversing the insertion order (a legitimate
permutation of the key set, as the Perm conjunct records), the selection
string meaning set 1,2 comes back as the unsorted list [2, 1]. The
de-duplication half of the claim does hold (the keys come from a map). -/
theorem c3_sort_comparator_ignores_elements :
    getBots List.reverse "1,2" = Except.ok (some [2, 1])
    ∧ (List.reverse (mapKeys [1, 2])).Perm (mapKeys [1, 2])
    ∧ ¬ List.Sorted (· ≤ ·) ([2, 1] : List Int) := by
  refine ⟨rfl, List.reverse_perm _, ?_⟩
  intro h
  have h2 := (List.sorted_cons.mp h).1 1 (List.mem_singleton.mpr rfl)
  omega

/-- Claim C5: a selection that mixes the token 0 with at least one
distinct nonzero value makes getBots return the zero-mixing error and no
selection list, whatever the map iteration order. The hypotheses say the
tokens all parse, with 0 and some nonzero value among the results. -/
theorem c5_zero_mixed_errors (order : List Int → List Int) (s : String)
    (vals : List Int) (n : Int)
    (hparse : parseAll (splitComma s) = Except.ok vals)
    (h0 : (0 : Int) ∈ vals) (hn : n ∈ vals) (hnz : n ≠ 0) :
    getBots order s = Except.error zeroMixMsg := by
  have hs : s ≠ "" := by
    intro hs0
    rw [hs0] at hparse
    exact Except.noConfusion
      ((rfl : parseAll (splitComma "") = Except.error (parseErrMsg "")).symm.trans
        hparse)
  unfold getBots
  rw [if_neg hs, hparse]
  have hz : vals.contains 0 = true := List.elem_eq_true_of_mem h0
  have hlen : 1 < (mapKeys vals).length :=
    one_lt_length_of_two_mem ((mem_mapKeys vals 0).mpr h0)
      ((mem_mapKeys vals n).mpr hn) (fun h => hnz h.symm)
  show (if vals.contains 0 = true ∧ 1 < (mapKeys vals).length
        then Except.error zeroMixMsg
        else if vals.contains 0 = true ∧ (mapKeys vals).length = 0
        then Except.ok none
        else Except.ok (some (sortSliceIndexLess (order (mapKeys vals)))))
      = Except.error zeroMixMsg
  rw [if_pos ⟨hz, hlen⟩]

/-- Witness for C5 at the selection string 0,1. -/
theorem c5_zero_mixed_errors_witness :
    getBots id "0,1" = Except.error zeroMixMsg :=
  c5_zero_mixed_errors id "0,1" [0, 1] 1 rfl (by decide) (by decide) (by decide)

/-- Claim C10: if some token of a nonempty selection string fails to parse
as an integer (p being the first such token), getBots returns an error and
no selection list, and the error message embeds the offending token. -/
theorem c10_bad_token_errors (order : List Int → List Int) (s p : String)
    (hs : s ≠ "")
    (hfind : (splitComma s).find? (fun q => (parseIntGo q).isNone) = some p) :
    getBots order s = Except.error (parseErrMsg p)
    ∧ ∃ a b, parseErrMsg p = a ++ p ++ b := by
  constructor
  · unfold getBots
    rw [if_neg hs, parseAll_error_of_find (splitComma s) p hfind]
  · exact ⟨"string ", " is not a valid digit", rfl⟩

/-- Witness for C10 at the selection string 1,foo. -/
theorem c10_bad_token_errors_witness :
    getBots id "1,foo" = Except.error (parseErrMsg "foo")
    ∧ ∃ a b, parseErrMsg "foo" = a ++ "foo" ++ b :=
  c10_bad_token_errors id "1,foo" "foo" (by decide) rfl

/-- Counterexample to claim C4 as stated: the list [5, -1] is returned by
getBots for the selection -1,5 under the iteration order that reverses
the insertion order (a legitimate permutation, second conjunct), and it
contains the non-positive index -1; yet against a roster of 3 devices the
resolution loop terminates with the logged out-of-bounds fatal error for
5 and never reaches the out-of-range access for -1. -/
theorem c4_counterexample :
    getBots List.reverse "-1,5" = Except.ok (some [5, -1])
    ∧ (List.reverse (mapKeys [-1, 5])).Perm (mapKeys [-1, 5])
    ∧ (-1 : Int) ∈ [(5 : Int), -1] ∧ (-1 : Int) ≤ 0
    ∧ mainStartup "tok" "-1,5" List.reverse (Except.ok roster3)
        = StartupOutcome.fatalOutOfBounds 5 3
    ∧ ∀ i, mainStartup "tok" "-1,5" List.reverse (Except.ok roster3)
        ≠ StartupOutcome.indexViolation i := by
  refine ⟨rfl, List.reverse_perm _, by decide, by decide, rfl, ?_⟩
  intro i h
  exact StartupOutcome.noConfusion
    (show StartupOutcome.fatalOutOfBounds 5 3 = StartupOutcome.indexViolation i
      from h)

/-- Claim C4 as amended: the bounds check tests only whether an index
exceeds the roster size, never whether it is at least 1, so for every
selection list that getBots returns containing some n <= 0, provided no
entry exceeds the roster size, startup reaches the out-of-range roster
access allRobots[n-1] instead of terminating with the logged out-of-bounds
fatal error. -/
theorem c4_nonpositive_reaches_access (token botsStr : String)
    (order : List Int → List Int) (bots : List Int) (allRobots : List Robot)
    (htok : token ≠ "")
    (hget : getBots order botsStr = Except.ok (some bots))
    (hne : allRobots.length ≠ 0)
    (hall : ∀ m ∈ bots, m ≤ (allRobots.length : Int))
    (hneg : ∃ n ∈ bots, n ≤ 0) :
    ∃ n ∈ bots, n ≤ 0 ∧
      mainStartup token botsStr order (Except.ok allRobots)
        = StartupOutcome.indexViolation (n - 1) := by
  obtain ⟨n, hn, hno, heq⟩ :=
    resolveRobots_violation_of_nonpos allRobots bots [] hall hneg
  refine ⟨n, hn, hno, ?_⟩
  unfold mainStartup
  rw [if_neg htok, hget]
  show (if allRobots.length = 0 then StartupOutcome.fatalNoRobots
        else match resolveRobots allRobots [] bots with
          | ResolveResult.ok rs => StartupOutcome.running rs
          | ResolveResult.fatalOutOfBounds n2 t =>
              StartupOutcome.fatalOutOfBounds n2 t
          | ResolveResult.indexViolation i => StartupOutcome.indexViolation i)
      = StartupOutcome.indexViolation (n - 1)
  rw [if_neg hne, heq]

/-- Witness for the amended C4: the selection string 0 (which getBots
passes through as the list [0], claim C2) against a 3-device roster makes
startup reach the access allRobots[-1]. -/
theorem c4_nonpositive_reaches_access_witness :
    ∃ n ∈ [(0 : Int)], (n ≤ 0 ∧
      mainStartup "tok" "0" id (Except.ok roster3)
        = StartupOutcome.indexViolation (n - 1)) :=
  c4_nonpositive_reaches_access "tok" "0" id [0] roster3 (by decide) rfl
    (by decide) (by decide) (by decide)

/-- Counterexample to claim C6 as stated: the selection -1,5 is accepted
by getBots (under insertion iteration order it returns [-1, 5]), 5
exceeds the roster size 3, yet startup dies by the out-of-range roster
access for -1 (a runtime index violation), not by the logged
out-of-bounds fatal error. -/
theorem c6_counterexample :
    getBots id "-1,5" = Except.ok (some [-1, 5])
    ∧ (5 : Int) ∈ [(-1 : Int), 5]
    ∧ (roster3.length : Int) < 5
    ∧ mainStartup "tok" "-1,5" id (Except.ok roster3)
        = StartupOutcome.indexViolation (-2)
    ∧ ∀ n t, mainStartup "tok" "-1,5" id (Except.ok roster3)
        ≠ StartupOutcome.fatalOutOfBounds n t := by
  refine ⟨rfl, by decide, by decide, rfl, ?_⟩
  intro n t h
  exact StartupOutcome.noConfusion
    (show StartupOutcome.indexViolation (-2)
        = StartupOutcome.fatalOutOfBounds n t from h)

/-- Claim C6 as amended: for every selection accepted by getBots all of
whose indices are at least 1, if any selected index exceeds the roster
size, startup terminates with the logged fatal error (carrying the first
such index and the roster size) before registering metrics or starting
the collector: in the model only the `running` outcome registers the
gauges and starts the collector, and the outcome here is
`fatalOutOfBounds`. -/
theorem c6_oversize_index_fatal (token botsStr : String)
    (order : List Int → List Int) (bots : List Int) (allRobots : List Robot)
    (htok : token ≠ "")
    (hget : getBots order botsStr = Except.ok (some bots))
    (hne : allRobots.length ≠ 0)
    (hpos : ∀ m ∈ bots, 1 ≤ m)
    (hover : ∃ n ∈ bots, (allRobots.length : Int) < n) :
    ∃ n ∈ bots, (allRobots.length : Int) < n ∧
      mainStartup token botsStr order (Except.ok allRobots)
        = StartupOutcome.fatalOutOfBounds n allRobots.length := by
  obtain ⟨n, hn, hno, heq⟩ :=
    resolveRobots_fatal_of_over allRobots bots [] hpos hover
  refine ⟨n, hn, hno, ?_⟩
  unfold mainStartup
  rw [if_neg htok, hget]
  show (if allRobots.length = 0 then StartupOutcome.fatalNoRobots
        else match resolveRobots allRobots [] bots with
          | ResolveResult.ok rs => StartupOutcome.running rs
          | ResolveResult.fatalOutOfBounds n2 t =>
              StartupOutcome.fatalOutOfBounds n2 t
          | ResolveResult.indexViolation i => StartupOutcome.indexViolation i)
      = StartupOutcome.fatalOutOfBounds n allRobots.length
  rw [if_neg hne, heq]

/-- Witness for the amended C6: end-to-end scenario 3 of the spec, the
selection 1,5 against a 3-device roster. -/
theorem c6_oversize_index_fatal_witness :
    ∃ n ∈ [(1 : Int), 5], ((roster3.length : Int) < n ∧
      mainStartup "tok" "1,5" id (Except.ok roster3)
        = StartupOutcome.fatalOutOfBounds n roster3.length) :=
  c6_oversize_index_fatal "tok" "1,5" id [1, 5] roster3 (by decide) rfl
    (by decide) (by decide) (by decide)

/-- Claim C7: for a device whose state fetch succeeded, a map-fetch
failure, an empty map list, or an absent cleaned-area value leaves the
whole area gauge exactly as it was (no entry zeroed or removed), emits no
area update and exactly one log line in the map section, touches no
battery or state entry other than that device's own label tuples, and
does not abort the cycle: every remaining device is still polled. -/
theorem c7_map_failure_frame (g : Gauges) (d : Device) (rest : List Device)
    (s : RobotState) (hs : d.stateResult = Except.ok s)
    (hm : (∃ e, d.mapsResult = Except.error e) ∨ d.mapsResult = Except.ok []
        ∨ ∃ m ms, d.mapsResult = Except.ok (m :: ms) ∧ m.cleanedArea = none) :
    (pollDevice g d).1.area = g.area
    ∧ (∀ k v, Event.setArea k v ∉ (pollDevice g d).2)
    ∧ ((pollDevice g d).2.filter isMapLogEvent).length = 1
    ∧ (∀ k, k ≠ batteryKeyOf d.robot →
        (pollDevice g d).1.battery k = g.battery k)
    ∧ (∀ k, k ≠ stateKeyOf d.robot s → (pollDevice g d).1.state k = g.state k)
    ∧ polledNames (collectorCycle g (d :: rest)).2
        = d.robot.name :: rest.map (fun d2 => d2.robot.name) := by
  have hcycle : polledNames (collectorCycle g (d :: rest)).2
      = d.robot.name :: rest.map (fun d2 => d2.robot.name) := by
    rw [polledNames_collectorCycle]
    rfl
  obtain ⟨r, sr, mr⟩ := d
  have hs2 : sr = Except.ok s := hs
  subst hs2
  rcases hm with ⟨e, hme⟩ | hme | ⟨m, ms, hme, hma⟩
  · have hme2 : mr = Except.error e := hme
    subst hme2
    refine ⟨rfl, ?_, rfl, ?_, ?_, hcycle⟩
    · intro k v h
      simp [pollDevice] at h
    · intro k hk
      simp [pollDevice, setGauge, hk]
    · intro k hk
      simp [pollDevice, setGauge, hk]
  · have hme2 : mr = Except.ok [] := hme
    subst hme2
    refine ⟨rfl, ?_, rfl, ?_, ?_, hcycle⟩
    · intro k v h
      simp [pollDevice] at h
    · intro k hk
      simp [pollDevice, setGauge, hk]
    · intro k hk
      simp [pollDevice, setGauge, hk]
  · have hme2 : mr = Except.ok (m :: ms) := hme
    subst hme2
    obtain ⟨ca⟩ := m
    have hma2 : ca = none := hma
    subst hma2
    refine ⟨rfl, ?_, rfl, ?_, ?_, hcycle⟩
    · intro k v h
      simp [pollDevice] at h
    · intro k hk
      simp [pollDevice, setGauge, hk]
    · intro k hk
      simp [pollDevice, setGauge, hk]

/-- Witness for C7: a device with a successful state fetch and an empty
map list, followed by one more device in the cycle. -/
theorem c7_map_failure_frame_witness :
    (pollDevice emptyGauges devBetaNoMaps).1.area = emptyGauges.area
    ∧ (∀ k v, Event.setArea k v ∉ (pollDevice emptyGauges devBetaNoMaps).2)
    ∧ ((pollDevice emptyGauges devBetaNoMaps).2.filter isMapLogEvent).length
        = 1
    ∧ (∀ k, k ≠ batteryKeyOf devBetaNoMaps.robot →
        (pollDevice emptyGauges devBetaNoMaps).1.battery k
          = emptyGauges.battery k)
    ∧ (∀ k, k ≠ stateKeyOf devBetaNoMaps.robot stBeta →
        (pollDevice emptyGauges devBetaNoMaps).1.state k = emptyGauges.state k)
    ∧ polledNames (collectorCycle emptyGauges (devBetaNoMaps :: [devGammaOk])).2
        = devBetaNoMaps.robot.name
          :: [devGammaOk].map (fun d2 => d2.robot.name) :=
  c7_map_failure_frame emptyGauges devBetaNoMaps [devGammaOk] stBeta rfl
    (Or.inr (Or.inl rfl))

/-- Claim C8: for a device whose state fetch succeeds, the collector sets
the battery gauge at the device's five-label tuple to the charge value as
a number, and the state gauge at the full sixteen-label tuple to exactly
1. -/
theorem c8_state_success_sets_gauges (g : Gauges) (d : Device)
    (s : RobotState) (hs : d.stateResult = Except.ok s) :
    (pollDevice g d).1.battery (batteryKeyOf d.robot)
      = some ((s.details.charge : ℚ))
    ∧ (pollDevice g d).1.state (stateKeyOf d.robot s) = some 1 := by
  obtain ⟨r, sr, mr⟩ := d
  have hs2 : sr = Except.ok s := hs
  subst hs2
  cases mr with
  | error e => constructor <;> simp [pollDevice, setGauge]
  | ok ms =>
    cases ms with
    | nil => constructor <;> simp [pollDevice, setGauge]
    | cons m ms2 =>
      cases hm : m.cleanedArea with
      | none => constructor <;> simp [pollDevice, hm, setGauge]
      | some a => constructor <;> simp [pollDevice, hm, setGauge]

/-- Witness for C8 at a concrete device with charge 77. -/
theorem c8_state_success_sets_gauges_witness :
    (pollDevice emptyGauges devBetaOk).1.battery (batteryKeyOf devBetaOk.robot)
      = some ((stBeta.details.charge : ℚ))
    ∧ (pollDevice emptyGauges devBetaOk).1.state
        (stateKeyOf devBetaOk.robot stBeta) = some 1 :=
  c8_state_success_sets_gauges emptyGauges devBetaOk stBeta rfl

/-- Claim C9: the gauges are updated at label tuples in which each absent
optional identity attribute (model, firmware, mac) reads as the literal
string unknown, each absent optional state attribute (error, alert) reads
as the literal string unset, and each present attribute reads as its
actual value. -/
theorem c9_label_rendering (g : Gauges) (d : Device) (s : RobotState)
    (hs : d.stateResult = Except.ok s) :
    ((pollDevice g d).1.battery (batteryKeyOf d.robot)).isSome = true
    ∧ ((pollDevice g d).1.state (stateKeyOf d.robot s)).isSome = true
    ∧ (d.robot.model = none → (batteryKeyOf d.robot).model = "unknown")
    ∧ (∀ v, d.robot.model = some v → (batteryKeyOf d.robot).model = v)
    ∧ (d.robot.firmware = none → (batteryKeyOf d.robot).firmware = "unknown")
    ∧ (∀ v, d.robot.firmware = some v → (batteryKeyOf d.robot).firmware = v)
    ∧ (d.robot.mac = none → (batteryKeyOf d.robot).mac = "unknown")
    ∧ (∀ v, d.robot.mac = some v → (batteryKeyOf d.robot).mac = v)
    ∧ (s.error = none → (stateKeyOf d.robot s).error = "unset")
    ∧ (∀ v, s.error = some v → (stateKeyOf d.robot s).error = v)
    ∧ (s.alert = none → (stateKeyOf d.robot s).alert = "unset")
    ∧ (∀ v, s.alert = some v → (stateKeyOf d.robot s).alert = v) := by
  refine ⟨?_, ?_, ?_, ?_, ?_, ?_, ?_, ?_, ?_, ?_, ?_, ?_⟩
  · obtain ⟨r, sr, mr⟩ := d
    have hs2 : sr = Except.ok s := hs
    subst hs2
    cases mr with
    | error e => simp [pollDevice, setGauge]
    | ok ms =>
      cases ms with
      | nil => simp [pollDevice, setGauge]
      | cons m ms2 => cases hm : m.cleanedArea <;> simp [pollDevice, hm, setGauge]
  · obtain ⟨r, sr, mr⟩ := d
    have hs2 : sr = Except.ok s := hs
    subst hs2
    cases mr with
    | error e => simp [pollDevice, setGauge]
    | ok ms =>
      cases ms with
      | nil => simp [pollDevice, setGauge]
      | cons m ms2 => cases hm : m.cleanedArea <;> simp [pollDevice, hm, setGauge]
  · intro h; simp [batteryKeyOf, orUnknown, h]
  · intro v h; simp [batteryKeyOf, orUnknown, h]
  · intro h; simp [batteryKeyOf, orUnknown, h]
  · intro v h; simp [batteryKeyOf, orUnknown, h]
  · intro h; simp [batteryKeyOf, orUnknown, h]
  · intro v h; simp [batteryKeyOf, orUnknown, h]
  · intro h; simp [stateKeyOf, orUnset, h]
  · intro v h; simp [stateKeyOf, orUnset, h]
  · intro h; simp [stateKeyOf, orUnset, h]
  · intro v h; simp [stateKeyOf, orUnset, h]

/-- Witness for C9 at a device whose optional identity and state
attributes are all absent. -/
theorem c9_label_rendering_witness :
    ((pollDevice emptyGauges devBetaOk).1.battery
        (batteryKeyOf devBetaOk.robot)).isSome = true
    ∧ ((pollDevice emptyGauges devBetaOk).1.state
        (stateKeyOf devBetaOk.robot stBeta)).isSome = true
    ∧ (devBetaOk.robot.model = none
        → (batteryKeyOf devBetaOk.robot).model = "unknown")
    ∧ (∀ v, devBetaOk.robot.model = some v
        → (batteryKeyOf devBetaOk.robot).model = v)
    ∧ (devBetaOk.robot.firmware = none
        → (batteryKeyOf devBetaOk.robot).firmware = "unknown")
    ∧ (∀ v, devBetaOk.robot.firmware = some v
        → (batteryKeyOf devBetaOk.robot).firmware = v)
    ∧ (devBetaOk.robot.mac = none
        → (batteryKeyOf devBetaOk.robot).mac = "unknown")
    ∧ (∀ v, devBetaOk.robot.mac = some v
        → (batteryKeyOf devBetaOk.robot).mac = v)
    ∧ (stBeta.error = none → (stateKeyOf devBetaOk.robot stBeta).error = "unset")
    ∧ (∀ v, stBeta.error = some v
        → (stateKeyOf devBetaOk.robot stBeta).error = v)
    ∧ (stBeta.alert = none → (stateKeyOf devBetaOk.robot stBeta).alert = "unset")
    ∧ (∀ v, stBeta.alert = some v
        → (stateKeyOf devBetaOk.robot stBeta).alert = v) :=
  c9_label_rendering emptyGauges devBetaOk stBeta rfl
